import Mathlib

/-!
Shallow embedding of `mint.py`, a script that reads XP point balances from a
relational store and mints a corresponding token amount to each wallet on
chain, recording each successful mint back into the store.

Modelling conventions:
* The database is a value of type `DB`: lists of rows for the three read
  tables (`user_user`, `user_userprofile`, `user_wallet`) and the write table
  (`user_transaction`).  SQL queries become pure functions over those lists;
  a nested-loop join models the SQL join.
* Amounts (`xp_points`, ledger `amount`, Python `Decimal`) are `Int`: every
  amount the script handles is an integer point balance or a difference of
  such balances.  `created_at` / `updated_at` wall-clock columns are outside
  the model.
* The chain RPC endpoint is an oracle `Chain`: a gas price, the transaction
  count fetched for the owner account, and a `submit` function mapping each
  signed transaction to the transaction hash (already hex-encoded) and the
  receipt status obtained after waiting for confirmation.
* Observable behaviour is an event trace: log lines (with their level), the
  invocation of `mint_xp` at a call site together with the argument values
  bound there (`attemptMint`), and raw-transaction submissions (`submit`).
* In `run`, the call `mint_xp(wallet_address, Decimal(xp_to_mint), nonce,
  web3, contract)` passes five positional arguments to a function whose
  signature has six required parameters, so Python raises a `TypeError`
  before the body of `mint_xp` executes; the surrounding `except` clause
  catches it and logs it.  The embedding reproduces exactly that control
  flow for the batch call site (the quotes Python puts around the parameter
  name in the message are elided).
-/

namespace Mint

/-- Row of `user_user`. -/
structure UserRow where
  id : Nat
  username : String
deriving DecidableEq

/-- Row of `user_userprofile`; `xp_points` is the accumulated point balance. -/
structure ProfileRow where
  id : Nat
  user_id : Nat
  xp_points : Int
deriving DecidableEq

/-- Row of `user_wallet`; its `user_id` column joins to the profile id. -/
structure WalletRow where
  id : Nat
  user_id : Nat
  wallet_address : String
deriving DecidableEq

/-- Row of `user_transaction` (the mint ledger); wall-clock timestamp columns
are outside the model. -/
structure TxRow where
  wallet_id : Nat
  tx_hash : String
  user_id : Nat
  amount : Int
  token : String
  chain_id : Nat
  status : String
  retry_count : Nat
deriving DecidableEq

/-- The relational store. -/
structure DB where
  users : List UserRow
  profiles : List ProfileRow
  wallets : List WalletRow
  transactions : List TxRow

/-- Environment-sourced configuration used by the script. -/
structure Config where
  chainId : Nat
  xpTokenContractAddress : String
  xpOwnerPrivateKey : String

/-- The unsigned transaction built by
`contract.functions.mint(wallet_address, wei).build_transaction(...)`:
a call of `mint(to, amount)` on the token contract with fixed gas, the
current gas price, the chain id and the given nonce. -/
structure Tx where
  contractAddress : String
  mintTo : String
  mintAmountWei : Int
  chainId : Nat
  gas : Nat
  gasPrice : Nat
  nonce : Nat
deriving DecidableEq

/-- A transaction signed with the owner key (`owner.sign_transaction(tx)`). -/
structure SignedTx where
  tx : Tx
  signerKey : String
deriving DecidableEq

/-- What the chain reports for a submitted transaction: the transaction hash
as a hex string (`tx_hash.hex()`) and the confirmation receipt status
(`receipt.status`) obtained by `wait_for_transaction_receipt`. -/
structure TxResult where
  hashHex : String
  status : Nat
deriving DecidableEq

/-- The chain RPC oracle: `gasPrice` models `web3.eth.gas_price`,
`transactionCount` models `web3.eth.get_transaction_count(owner.address)`
at the time the script fetches it, and `submit` maps each signed raw
transaction to its hash and confirmed receipt status. -/
structure Chain where
  gasPrice : Nat
  transactionCount : Nat
  submit : SignedTx → TxResult

/-- Severity of a log line. -/
inductive Level where
  | info
  | error
deriving DecidableEq

/-- One observable event of a script execution. -/
inductive Event where
  | log : Level → String → Event
  | attemptMint : String → Int → Nat → Event
  | submit : SignedTx → Event
deriving DecidableEq

/-- Observable state threaded through an execution: the `user_transaction`
table contents, the local nonce variable, and the event trace. -/
structure St where
  ledger : List TxRow
  nonce : Nat
  trace : List Event
deriving DecidableEq

/-- A row of the result set of the eligibility query:
`(username, profile id, xp_points, wallet_address, wallet id)`. -/
abbrev UserTuple := String × Nat × Int × String × Nat

/-- `get_users`: `SELECT u.username, up.id, up.xp_points, w.wallet_address,
w.id FROM user_userprofile up JOIN user_user u ON up.user_id = u.id JOIN
user_wallet w ON w.user_id = up.id WHERE up.xp_points > 0`. -/
def get_users (db : DB) : List UserTuple :=
  db.profiles.flatMap fun up =>
    db.users.flatMap fun u =>
      db.wallets.flatMap fun w =>
        if up.user_id = u.id ∧ w.user_id = up.id ∧ 0 < up.xp_points then
          [(u.username, up.id, up.xp_points, w.wallet_address, w.id)]
        else []

/-- `SELECT COALESCE(SUM(amount), 0) FROM user_transaction WHERE user_id = %s
AND token = XP` (an empty sum is 0, as COALESCE makes it). -/
def totalMinted (ledger : List TxRow) (profile_id : Nat) : Int :=
  ((ledger.filter fun t => t.user_id == profile_id && t.token == "XP").map
    TxRow.amount).sum

/-- `has_pending_transaction(profile_id, current_xp)`: true when the summed
previously minted XP amount is already at least the current balance
(`Decimal(total_minted) >= Decimal(current_xp)`). -/
def has_pending_transaction (ledger : List TxRow) (profile_id : Nat)
    (current_xp : Int) : Bool :=
  decide (current_xp ≤ totalMinted ledger profile_id)

/-- `web3.to_wei(amount, ether)`: 18-decimal base-unit scaling. -/
def to_wei (amount : Int) : Int :=
  amount * 10 ^ 18

/-- The transaction `mint_xp` builds before signing. -/
def build_transaction (cfg : Config) (chain : Chain) (wallet_address : String)
    (amount : Int) (nonce : Nat) : Tx :=
  { contractAddress := cfg.xpTokenContractAddress
    mintTo := wallet_address
    mintAmountWei := to_wei amount
    chainId := cfg.chainId
    gas := 200000
    gasPrice := chain.gasPrice
    nonce := nonce }

/-- `owner.sign_transaction(tx)`: pair the transaction with the signing key. -/
def sign_transaction (ownerKey : String) (tx : Tx) : SignedTx :=
  { tx := tx, signerKey := ownerKey }

/-- The hash-and-receipt the chain yields for the transaction `mint_xp`
submits with these arguments; names the value of
`chain.submit` on the signed transaction so theorems can refer to it. -/
def submitResult (cfg : Config) (chain : Chain) (wallet_address : String)
    (amount : Int) (nonce : Nat) (ownerKey : String) : TxResult :=
  chain.submit (sign_transaction ownerKey
    (build_transaction cfg chain wallet_address amount nonce))

/-- `mint_xp(wallet_address, amount, nonce, web3, contract, owner)` with all
six arguments supplied: build the transaction, sign it, submit it, wait for
the receipt; return the hash hex string when `receipt.status == 1`, `None`
otherwise.  The second component is the submission event it contributes to
the trace. -/
def mint_xp (cfg : Config) (chain : Chain) (wallet_address : String)
    (amount : Int) (nonce : Nat) (ownerKey : String) : Option String × Event :=
  let stx := sign_transaction ownerKey
    (build_transaction cfg chain wallet_address amount nonce)
  let r := submitResult cfg chain wallet_address amount nonce ownerKey
  (if r.status = 1 then some r.hashHex else none, Event.submit stx)

/-- `record_transaction`: insert exactly one row into `user_transaction` and
commit. -/
def record_transaction (ledger : List TxRow) (wallet_id : Nat)
    (tx_hash : String) (user_profile_id : Nat) (amount : Int) (token : String)
    (chain_id : Nat) (status : String) (retry_count : Nat) : List TxRow :=
  ledger ++
    [{ wallet_id := wallet_id
       tx_hash := tx_hash
       user_id := user_profile_id
       amount := amount
       token := token
       chain_id := chain_id
       status := status
       retry_count := retry_count }]

/-- Message of the `TypeError` Python raises at the five-argument batch call
of `mint_xp` (whose signature has six required positional parameters); the
quotes Python places around the parameter name are elided. -/
def typeErrorMsg : String :=
  "mint_xp() missing 1 required positional argument: owner"

/-- One iteration of the `for` loop in `run` over an eligibility row.
If `has_pending_transaction` holds, the iteration logs the skip message and
`continue`s — control jumps to the next iteration, past the `nonce += 1`
at the bottom of the loop body, so the nonce is unchanged.  Otherwise it
computes `xp_to_mint = xp - 1`, logs, and calls
`mint_xp(wallet_address, Decimal(xp_to_mint), nonce, web3, contract)`: five
positional arguments for a six-parameter function, so Python raises
`TypeError` at the call, before any transaction is built or submitted; the
`except` clause logs the error, and `nonce += 1` then executes. -/
def runStep (st : St) (user : UserTuple) : St :=
  let (username, profile_id, xp, wallet_address, _wallet_id) := user
  if has_pending_transaction st.ledger profile_id xp then
    { st with
      trace := st.trace ++
        [Event.log Level.info
          ("⏭️ Skipping " ++ username ++ ": XP already minted or equal")] }
  else
    let xp_to_mint : Int := xp - 1
    { st with
      trace := st.trace ++
        [Event.log Level.info
          ("🔄 Minting " ++ toString xp_to_mint ++ " XP for " ++ username ++
            " → " ++ wallet_address),
         Event.attemptMint wallet_address xp_to_mint st.nonce,
         Event.log Level.error
          ("🔥 Error minting for " ++ username ++ ": " ++ typeErrorMsg)]
      nonce := st.nonce + 1 }

/-- The `for` loop of `run` over the eligibility rows. -/
def runLoop (st : St) (users : List UserTuple) : St :=
  users.foldl runStep st

/-- State of `run` after the start log, the eligibility query, owner
derivation, the one-time nonce fetch and contract binding, before the loop. -/
def runInit (chain : Chain) (db : DB) : St :=
  { ledger := db.transactions
    nonce := chain.transactionCount
    trace := [Event.log Level.info "🚀 Minting XP tokens..."] }

/-- `run()`, batch mode: log the start message, query the eligible users; if
none, log and return (no nonce is ever fetched on that path — the model
leaves the field at 0); otherwise fetch the nonce once and loop. -/
def run (chain : Chain) (db : DB) : St :=
  let users := get_users db
  if users.isEmpty then
    { ledger := db.transactions
      nonce := 0
      trace := [Event.log Level.info "🚀 Minting XP tokens...",
                Event.log Level.info "❌ No users with XP found."] }
  else
    runLoop (runInit chain db) users

/-- The hardcoded wallet address targeted by `mint_to_specific_wallet`. -/
def target_address : String :=
  "0x377B8a3152abEfb9a9da776C606024Bb8b93be0F"

/-- The lookup query of `mint_to_specific_wallet` followed by `fetchone()`:
the same three-table join as `get_users` but filtered on the wallet address
instead of the balance, taking the first row if any. -/
def lookup_wallet (db : DB) (addr : String) : Option UserTuple :=
  (db.profiles.flatMap fun up =>
    db.users.flatMap fun u =>
      db.wallets.flatMap fun w =>
        if up.user_id = u.id ∧ w.user_id = up.id ∧ w.wallet_address = addr then
          [(u.username, up.id, up.xp_points, w.wallet_address, w.id)]
        else []).head?

/-- `mint_to_specific_wallet()`: look up the hardcoded wallet; bail out when
no row is found, or when the balance is falsy (`not xp`, which for an
integer balance means 0) or at most 1.  Otherwise `logging.info` prints the
owner private key verbatim, the owner account and nonce are set up,
`xp_to_mint = xp - 1`, and `mint_xp` is called with all six arguments; on a
hash result exactly one ledger row is inserted, otherwise none. -/
def mint_to_specific_wallet (cfg : Config) (chain : Chain) (db : DB) : St :=
  match lookup_wallet db target_address with
  | none =>
      { ledger := db.transactions
        nonce := 0
        trace := [Event.log Level.error "❌ Wallet not found"] }
  | some (username, profile_id, xp, wallet_address, wallet_id) =>
      if xp = 0 ∨ xp ≤ 1 then
        { ledger := db.transactions
          nonce := 0
          trace := [Event.log Level.info "❌ No users with XP found."] }
      else
        let nonce := chain.transactionCount
        let xp_to_mint : Int := xp - 1
        let call := mint_xp cfg chain wallet_address xp_to_mint nonce
          cfg.xpOwnerPrivateKey
        let tr0 : List Event :=
          [Event.log Level.info cfg.xpOwnerPrivateKey,
           Event.log Level.info
            ("🔄 Minting " ++ toString xp_to_mint ++ " XP give " ++ username ++
              " → " ++ wallet_address),
           Event.attemptMint wallet_address xp_to_mint nonce,
           call.2]
        match call.1 with
        | some tx_hash =>
            { ledger := record_transaction db.transactions wallet_id tx_hash
                profile_id xp_to_mint "XP" cfg.chainId "success" 0
              nonce := nonce
              trace := tr0 ++
                [Event.log Level.info
                  ("✅ Success Mint " ++ toString xp_to_mint ++ " XP → TX: " ++
                    tx_hash)] }
        | none =>
            { ledger := db.transactions
              nonce := nonce
              trace := tr0 ++
                [Event.log Level.error ("❌ Mint Fail for " ++ username)] }

/-- Whether the batch loop skips this eligibility row: the
`has_pending_transaction` test on its profile id and balance. -/
def skips (ledger : List TxRow) (u : UserTuple) : Bool :=
  has_pending_transaction ledger u.2.1 u.2.2.1

/-- Error-level log messages of a trace. -/
def errorMsgOf : Event → Option String
  | Event.log Level.error m => some m
  | _ => none

/-- Raw-transaction submissions of a trace. -/
def submitOf : Event → Option SignedTx
  | Event.submit s => some s
  | _ => none

/-- Wallet address and amount bound at each `mint_xp` call site of a trace. -/
def attemptOf : Event → Option (String × Int)
  | Event.attemptMint a amt _ => some (a, amt)
  | _ => none

/-- The error log line the batch loop emits for a user whose mint call
raised. -/
def batchErrMsg (username : String) : String :=
  "🔥 Error minting for " ++ username ++ ": " ++ typeErrorMsg

/-- The events one batch iteration appends to the trace. -/
def stepEvents (ledger : List TxRow) (nonce : Nat) (u : UserTuple) :
    List Event :=
  if skips ledger u then
    [Event.log Level.info
      ("⏭️ Skipping " ++ u.1 ++ ": XP already minted or equal")]
  else
    [Event.log Level.info
      ("🔄 Minting " ++ toString (u.2.2.1 - 1) ++ " XP for " ++ u.1 ++
        " → " ++ u.2.2.2.1),
     Event.attemptMint u.2.2.2.1 (u.2.2.1 - 1) nonce,
     Event.log Level.error (batchErrMsg u.1)]

/-- The signed transaction the single-wallet path submits for a wallet with
address `addr` and balance `xp`. -/
def singleStx (cfg : Config) (chain : Chain) (addr : String) (xp : Int) :
    SignedTx :=
  sign_transaction cfg.xpOwnerPrivateKey
    (build_transaction cfg chain addr (xp - 1) chain.transactionCount)

/-- The hash-and-receipt the chain yields for that submission. -/
def singleRes (cfg : Config) (chain : Chain) (addr : String) (xp : Int) :
    TxResult :=
  submitResult cfg chain addr (xp - 1) chain.transactionCount
    cfg.xpOwnerPrivateKey

/-- The events the single-wallet path emits before it inspects the mint
result: the private-key INFO line, the minting INFO line, the call-site
binding, and the submission. -/
def singleTrace0 (cfg : Config) (chain : Chain) (username addr : String)
    (xp : Int) : List Event :=
  [Event.log Level.info cfg.xpOwnerPrivateKey,
   Event.log Level.info
    ("🔄 Minting " ++ toString (xp - 1) ++ " XP give " ++ username ++
      " → " ++ addr),
   Event.attemptMint addr (xp - 1) chain.transactionCount,
   Event.submit (singleStx cfg chain addr xp)]

/-- Fixture: a chain whose every submission confirms with status 1. -/
def chainOk : Chain :=
  { gasPrice := 3
    transactionCount := 7
    submit := fun _ => { hashHex := "0xabc123", status := 1 } }

/-- Fixture: a chain whose every submission confirms with status 0. -/
def chainBad : Chain :=
  { gasPrice := 3
    transactionCount := 7
    submit := fun _ => { hashHex := "0xdef456", status := 0 } }

/-- Fixture: a configuration. -/
def cfg0 : Config :=
  { chainId := 8453
    xpTokenContractAddress := "0xC0FFEE"
    xpOwnerPrivateKey := "0xSECRETKEY" }

/-- Fixture: one eligible user whose balance is already fully covered by a
recorded mint, so the batch loop skips the iteration. -/
def db0 : DB :=
  { users := [{ id := 1, username := "alice" }]
    profiles := [{ id := 10, user_id := 1, xp_points := 5 }]
    wallets := [{ id := 100, user_id := 10, wallet_address := "0xAAA" }]
    transactions :=
      [{ wallet_id := 100, tx_hash := "0xh1", user_id := 10, amount := 5,
         token := "XP", chain_id := 8453, status := "success",
         retry_count := 0 }] }

/-- Fixture: the hardcoded target wallet with balance 10 and no prior
mints. -/
def db4 : DB :=
  { users := [{ id := 1, username := "alice" }]
    profiles := [{ id := 10, user_id := 1, xp_points := 10 }]
    wallets := [{ id := 100, user_id := 10, wallet_address := target_address }]
    transactions := [] }

/-- Fixture: the hardcoded target wallet with balance exactly 1. -/
def db5 : DB :=
  { users := [{ id := 2, username := "bob" }]
    profiles := [{ id := 20, user_id := 2, xp_points := 1 }]
    wallets := [{ id := 200, user_id := 20, wallet_address := target_address }]
    transactions := [] }

/-- Fixture: a batch user with balance exactly 1 and no prior mints. -/
def db6 : DB :=
  { users := [{ id := 3, username := "carol" }]
    profiles := [{ id := 30, user_id := 3, xp_points := 1 }]
    wallets := [{ id := 300, user_id := 30, wallet_address := "0xCCC" }]
    transactions := [] }

/-- One batch iteration never touches the ledger: in the skip branch nothing
is written, and in the other branch the mint call raises before any write. -/
theorem runStep_ledger (st : St) (u : UserTuple) :
    (runStep st u).ledger = st.ledger := by
  obtain ⟨a, b, c, d, e⟩ := u
  by_cases h : has_pending_transaction st.ledger b c <;> simp [runStep, h]

/-- One batch iteration leaves the nonce unchanged exactly when it skips
(the `continue` jumps past `nonce += 1`), and increments it otherwise. -/
theorem runStep_nonce (st : St) (u : UserTuple) :
    (runStep st u).nonce
      = if skips st.ledger u then st.nonce else st.nonce + 1 := by
  obtain ⟨a, b, c, d, e⟩ := u
  by_cases h : has_pending_transaction st.ledger b c <;>
    simp [runStep, skips, h]

/-- The trace grows by exactly the events of `stepEvents` each iteration. -/
theorem runStep_trace (st : St) (u : UserTuple) :
    (runStep st u).trace = st.trace ++ stepEvents st.ledger st.nonce u := by
  obtain ⟨a, b, c, d, e⟩ := u
  by_cases h : has_pending_transaction st.ledger b c <;>
    simp [runStep, stepEvents, skips, batchErrMsg, h]

/-- The batch loop never changes the ledger. -/
theorem runLoop_ledger (users : List UserTuple) :
    ∀ st : St, (runLoop st users).ledger = st.ledger := by
  induction users with
  | nil => intro st; rfl
  | cons u us ih =>
      intro st
      have h : runLoop st (u :: us) = runLoop (runStep st u) us := rfl
      rw [h, ih, runStep_ledger]

/-- After the loop the nonce has advanced by the number of iterations that
were not skipped. -/
theorem runLoop_nonce (users : List UserTuple) :
    ∀ st : St, (runLoop st users).nonce
      = st.nonce + (users.filter fun u => !(skips st.ledger u)).length := by
  induction users with
  | nil => intro st; simp [runLoop]
  | cons u us ih =>
      intro st
      have h : runLoop st (u :: us) = runLoop (runStep st u) us := rfl
      rw [h, ih, runStep_ledger, runStep_nonce]
      by_cases hs : skips st.ledger u
      · simp [hs, List.filter_cons]
      · simp [hs, List.filter_cons]
        omega

/-- Shape of any projection of the loop trace: the events contributed per
user, appended in order. -/
theorem runLoop_trace_filterMap {α : Type} (f : Event → Option α)
    (g : List TxRow → UserTuple → List α)
    (hg : ∀ l n u, (stepEvents l n u).filterMap f = g l u)
    (users : List UserTuple) :
    ∀ st : St, (runLoop st users).trace.filterMap f
      = st.trace.filterMap f ++ users.flatMap (g st.ledger) := by
  induction users with
  | nil => intro st; simp [runLoop]
  | cons u us ih =>
      intro st
      have h : runLoop st (u :: us) = runLoop (runStep st u) us := rfl
      rw [h, ih, runStep_ledger, runStep_trace, List.filterMap_append, hg,
        List.flatMap_cons, List.append_assoc]

/-- A batch iteration submits nothing. -/
theorem stepEvents_submits (l : List TxRow) (n : Nat) (u : UserTuple) :
    (stepEvents l n u).filterMap submitOf = [] := by
  by_cases h : skips l u <;> simp [stepEvents, h, submitOf]

/-- A batch iteration logs one error exactly when it does not skip. -/
theorem stepEvents_errors (l : List TxRow) (n : Nat) (u : UserTuple) :
    (stepEvents l n u).filterMap errorMsgOf
      = if skips l u then [] else [batchErrMsg u.1] := by
  by_cases h : skips l u <;> simp [stepEvents, h, errorMsgOf]

/-- A batch iteration attempts one mint of `xp - 1` exactly when it does not
skip. -/
theorem stepEvents_attempts (l : List TxRow) (n : Nat) (u : UserTuple) :
    (stepEvents l n u).filterMap attemptOf
      = if skips l u then [] else [(u.2.2.2.1, u.2.2.1 - 1)] := by
  by_cases h : skips l u <;> simp [stepEvents, h, attemptOf]

/-- Collapsing the per-user contribution over the whole user list. -/
theorem flatMap_ite_filter {α : Type} (l : List TxRow) (h : UserTuple → α)
    (users : List UserTuple) :
    (users.flatMap fun u => if skips l u then [] else [h u])
      = (users.filter fun u => !(skips l u)).map h := by
  induction users with
  | nil => rfl
  | cons u us ih =>
      by_cases hs : skips l u <;>
        simp [List.flatMap_cons, List.filter_cons, hs, ih]

/-- With at least one eligible user, `run` is the loop from the initial
state. -/
theorem run_eq_runLoop (chain : Chain) (db : DB) (h : get_users db ≠ []) :
    run chain db = runLoop (runInit chain db) (get_users db) := by
  have h2 : (get_users db).isEmpty = false := by
    simpa [List.isEmpty_iff] using h
  simp [run, h2]

/-- With no eligible users, `run` only logs. -/
theorem run_empty (chain : Chain) (db : DB) (h : get_users db = []) :
    run chain db =
      { ledger := db.transactions
        nonce := 0
        trace := [Event.log Level.info "🚀 Minting XP tokens...",
                  Event.log Level.info "❌ No users with XP found."] } := by
  simp [run, h]

/-- Membership in the eligibility query result. -/
theorem mem_get_users_iff (db : DB) (t : UserTuple) :
    t ∈ get_users db ↔
      ∃ up, up ∈ db.profiles ∧ ∃ u, u ∈ db.users ∧ ∃ w, w ∈ db.wallets ∧
        up.user_id = u.id ∧ w.user_id = up.id ∧ 0 < up.xp_points ∧
        t = (u.username, up.id, up.xp_points, w.wallet_address, w.id) := by
  simp only [get_users, List.mem_flatMap, List.mem_ite_nil_right,
    List.mem_singleton]
  constructor
  · rintro ⟨up, hup, u, hu, w, hw, ⟨h1, h2, h3⟩, ht⟩
    exact ⟨up, hup, u, hu, w, hw, h1, h2, h3, ht⟩
  · rintro ⟨up, hup, u, hu, w, hw, h1, h2, h3, ht⟩
    exact ⟨up, hup, u, hu, w, hw, ⟨h1, h2, h3⟩, ht⟩

/-- A profile with no recorded XP rows has recorded sum 0. -/
theorem totalMinted_eq_zero (ledger : List TxRow) (pid : Nat)
    (h : ledger.filter (fun t => t.user_id == pid && t.token == "XP") = []) :
    totalMinted ledger pid = 0 := by
  simp [totalMinted, h]

/-- A list whose every element contributes nothing flattens to nothing. -/
theorem flatMap_const_nil {α β : Type} (l : List α) :
    (l.flatMap fun _ => ([] : List β)) = [] := by
  induction l with
  | nil => rfl
  | cons a l ih => simp [ih]

/-- The batch run submits no raw transaction. -/
theorem run_submits (chain : Chain) (db : DB) :
    (run chain db).trace.filterMap submitOf = [] := by
  by_cases h : get_users db = []
  · rw [run_empty chain db h]
    rfl
  · rw [run_eq_runLoop chain db h,
      runLoop_trace_filterMap submitOf (fun _ _ => []) stepEvents_submits
        (get_users db) (runInit chain db)]
    simp [runInit, submitOf, flatMap_const_nil]

/-- The batch run leaves the ledger exactly as it found it. -/
theorem run_ledger (chain : Chain) (db : DB) :
    (run chain db).ledger = db.transactions := by
  by_cases h : get_users db = []
  · rw [run_empty chain db h]
  · rw [run_eq_runLoop chain db h, runLoop_ledger]
    rfl

/-- The error-level log lines of the batch run are exactly one caught-mint
error per eligible user that was not skipped, in order. -/
theorem run_errors (chain : Chain) (db : DB) :
    (run chain db).trace.filterMap errorMsgOf
      = ((get_users db).filter fun u => !(skips db.transactions u)).map
          (fun u => batchErrMsg u.1) := by
  by_cases h : get_users db = []
  · rw [run_empty chain db h]
    simp [h, errorMsgOf]
  · rw [run_eq_runLoop chain db h,
      runLoop_trace_filterMap errorMsgOf
        (fun l u => if skips l u then [] else [batchErrMsg u.1])
        stepEvents_errors (get_users db) (runInit chain db)]
    simp only [runInit]
    rw [flatMap_ite_filter]
    simp [errorMsgOf]

/-- The mint attempts of the batch run are exactly one attempt of
`balance − 1` per eligible user that was not skipped, in order. -/
theorem run_attempts (chain : Chain) (db : DB) :
    (run chain db).trace.filterMap attemptOf
      = ((get_users db).filter fun u => !(skips db.transactions u)).map
          (fun u => (u.2.2.2.1, u.2.2.1 - 1)) := by
  by_cases h : get_users db = []
  · rw [run_empty chain db h]
    simp [h, attemptOf]
  · rw [run_eq_runLoop chain db h,
      runLoop_trace_filterMap attemptOf
        (fun l u => if skips l u then [] else [(u.2.2.2.1, u.2.2.1 - 1)])
        stepEvents_attempts (get_users db) (runInit chain db)]
    simp only [runInit]
    rw [flatMap_ite_filter]
    simp [attemptOf]

/-- Full characterization of the single-wallet path once the wallet row is
found and the balance exceeds 1, split on the receipt status. -/
theorem mint_to_specific_wallet_eq (cfg : Config) (chain : Chain) (db : DB)
    (username : String) (pid : Nat) (xp : Int) (addr : String) (wid : Nat)
    (h : lookup_wallet db target_address = some (username, pid, xp, addr, wid))
    (hxp : 1 < xp) :
    mint_to_specific_wallet cfg chain db
      = if (singleRes cfg chain addr xp).status = 1 then
          { ledger := record_transaction db.transactions wid
              (singleRes cfg chain addr xp).hashHex pid (xp - 1) "XP"
              cfg.chainId "success" 0
            nonce := chain.transactionCount
            trace := singleTrace0 cfg chain username addr xp ++
              [Event.log Level.info
                ("✅ Success Mint " ++ toString (xp - 1) ++ " XP → TX: " ++
                  (singleRes cfg chain addr xp).hashHex)] }
        else
          { ledger := db.transactions
            nonce := chain.transactionCount
            trace := singleTrace0 cfg chain username addr xp ++
              [Event.log Level.error ("❌ Mint Fail for " ++ username)] } := by
  unfold mint_to_specific_wallet
  rw [h]
  simp only [if_neg (by omega : ¬(xp = 0 ∨ xp ≤ 1))]
  by_cases hs : (submitResult cfg chain addr (xp - 1) chain.transactionCount
      cfg.xpOwnerPrivateKey).status = 1 <;>
    simp [mint_xp, singleRes, singleStx, singleTrace0, hs]

/-- C1 counterexample: `db0` has exactly one eligible user, whose iteration
the batch loop skips via `continue`; the `continue` jumps past `nonce += 1`,
so after processing that user the nonce still equals the initially fetched
transaction count 7 rather than 7 + 1 as the claim requires. -/
theorem run_nonce_claim_counterexample :
    (get_users db0).length = 1 ∧
    (run chainOk db0).nonce = chainOk.transactionCount ∧
    ¬(run chainOk db0).nonce = chainOk.transactionCount + 1 := by
  refine ⟨by decide, by decide, by decide⟩

/-- C1 (amended): in batch mode the nonce is incremented once per iteration
that is not skipped by the pending-mint check (whether or not that
iteration's mint attempt raised), and not at all on skipped iterations:
when at least one eligible user exists, `run` executes the loop from the
initial state, and after processing the first k eligible users the nonce
equals the initially fetched transaction count plus the number of those k
users that were not skipped. -/
theorem run_nonce_counts_nonskipped (chain : Chain) (db : DB) (k : Nat)
    (h : get_users db ≠ []) :
    run chain db = runLoop (runInit chain db) (get_users db) ∧
    (runLoop (runInit chain db) ((get_users db).take k)).nonce
      = chain.transactionCount
        + (((get_users db).take k).filter
            fun u => !(skips db.transactions u)).length := by
  refine ⟨run_eq_runLoop chain db h, ?_⟩
  simpa [runInit] using
    runLoop_nonce ((get_users db).take k) (runInit chain db)

/-- Witness for C1 (amended) at the concrete fixture. -/
theorem run_nonce_counts_nonskipped_witness :
    run chainOk db0 = runLoop (runInit chainOk db0) (get_users db0) ∧
    (runLoop (runInit chainOk db0) ((get_users db0).take 1)).nonce
      = chainOk.transactionCount
        + (((get_users db0).take 1).filter
            fun u => !(skips db0.transactions u)).length :=
  run_nonce_counts_nonskipped chainOk db0 1 (by decide)

/-- C2: every non-skipped batch iteration calls `mint_xp` with one argument
fewer than its six-parameter signature requires, so the call raises and is
caught and logged per user: the batch run submits no raw transaction,
writes no ledger row, and its error-level log lines are exactly one caught
error per non-skipped eligible user. -/
theorem run_batch_mint_always_raises (chain : Chain) (db : DB) :
    (run chain db).trace.filterMap submitOf = [] ∧
    (run chain db).ledger = db.transactions ∧
    (run chain db).trace.filterMap errorMsgOf
      = ((get_users db).filter fun u => !(skips db.transactions u)).map
          (fun u => batchErrMsg u.1) :=
  ⟨run_submits chain db, run_ledger chain db, run_errors chain db⟩

/-- C3 counterexample: a profile with no recorded mints and current balance
0 makes `has_pending_transaction` return true (the empty sum 0 is ≥ 0), not
false as the claim asserts for every balance. -/
theorem has_pending_no_prior_counterexample :
    (([] : List TxRow).filter fun t => t.user_id == 1 && t.token == "XP")
        = [] ∧
    has_pending_transaction [] 1 0 = true :=
  ⟨rfl, by decide⟩

/-- C3 (amended): `has_pending_transaction` returns true exactly when the
sum of previously recorded mint amounts for the profile restricted to token
XP (0 when no rows exist) is at least the current balance; consequently,
for a profile with no prior recorded XP mints and a strictly positive
current balance it returns false. -/
theorem has_pending_transaction_spec (ledger : List TxRow) (pid : Nat)
    (xp : Int) :
    (has_pending_transaction ledger pid xp = true
      ↔ xp ≤ totalMinted ledger pid) ∧
    ((ledger.filter fun t => t.user_id == pid && t.token == "XP") = [] →
      0 < xp → has_pending_transaction ledger pid xp = false) := by
  refine ⟨by simp [has_pending_transaction], ?_⟩
  intro h hxp
  have h0 := totalMinted_eq_zero ledger pid h
  simp [has_pending_transaction, h0]
  omega

/-- Witness for C3 (amended) at a concrete input. -/
theorem has_pending_transaction_spec_witness :
    has_pending_transaction [] 2 3 = false :=
  (has_pending_transaction_spec [] 2 3).2 rfl (by decide)

/-- C4: the amount bound at the `mint_xp` call site is the balance minus
one, in both modes: the batch attempts are exactly one `balance − 1`
attempt per non-skipped eligible user (which covers every user with
balance > 1 and no prior mints), and for a found single-mode wallet with
balance above 1 the one attempt carries `balance − 1`. -/
theorem mint_amount_balance_sub_one (cfg : Config) (chain : Chain)
    (db : DB) :
    (run chain db).trace.filterMap attemptOf
      = ((get_users db).filter fun u => !(skips db.transactions u)).map
          (fun u => (u.2.2.2.1, u.2.2.1 - 1)) ∧
    (∀ username pid xp addr wid,
      lookup_wallet db target_address = some (username, pid, xp, addr, wid) →
      1 < xp →
      (mint_to_specific_wallet cfg chain db).trace.filterMap attemptOf
        = [(addr, xp - 1)]) := by
  refine ⟨run_attempts chain db, ?_⟩
  intro username pid xp addr wid h hxp
  rw [mint_to_specific_wallet_eq cfg chain db username pid xp addr wid h hxp]
  by_cases hs : (singleRes cfg chain addr xp).status = 1 <;>
    simp [hs, singleTrace0, attemptOf]

/-- Witness for C4 at the concrete fixture (balance 10, amount 9). -/
theorem mint_amount_balance_sub_one_witness :
    (mint_to_specific_wallet cfg0 chainOk db4).trace.filterMap attemptOf
      = [(target_address, (10 : Int) - 1)] :=
  (mint_amount_balance_sub_one cfg0 chainOk db4).2 "alice" 10 10
    target_address 100 (by decide) (by decide)

/-- C5: on the single-wallet path — the only path on which a call of
`mint_xp` completes — a confirmation receipt with status 1 produces exactly
one new ledger row carrying token XP, status success, retry count 0 and the
minted amount, while a receipt with status ≠ 1 (`mint_xp` returns `None`)
produces no ledger row. -/
theorem receipt_status_determines_ledger (cfg : Config) (chain : Chain)
    (db : DB) (username : String) (pid : Nat) (xp : Int) (addr : String)
    (wid : Nat)
    (h : lookup_wallet db target_address = some (username, pid, xp, addr, wid))
    (hxp : 1 < xp) :
    ((singleRes cfg chain addr xp).status = 1 →
      (mint_to_specific_wallet cfg chain db).ledger
        = db.transactions ++
          [{ wallet_id := wid
             tx_hash := (singleRes cfg chain addr xp).hashHex
             user_id := pid
             amount := xp - 1
             token := "XP"
             chain_id := cfg.chainId
             status := "success"
             retry_count := 0 }]) ∧
    (¬(singleRes cfg chain addr xp).status = 1 →
      (mint_to_specific_wallet cfg chain db).ledger = db.transactions) := by
  rw [mint_to_specific_wallet_eq cfg chain db username pid xp addr wid h hxp]
  constructor
  · intro hs
    rw [if_pos hs]
    rfl
  · intro hs
    rw [if_neg hs]

/-- Witness for C5: both receipt outcomes at the concrete fixture. -/
theorem receipt_status_determines_ledger_witness :
    (mint_to_specific_wallet cfg0 chainOk db4).ledger
      = db4.transactions ++
        [{ wallet_id := 100
           tx_hash := (singleRes cfg0 chainOk target_address 10).hashHex
           user_id := 10
           amount := (10 : Int) - 1
           token := "XP"
           chain_id := cfg0.chainId
           status := "success"
           retry_count := 0 }] ∧
    (mint_to_specific_wallet cfg0 chainBad db4).ledger = db4.transactions :=
  ⟨(receipt_status_determines_ledger cfg0 chainOk db4 "alice" 10 10
      target_address 100 (by decide) (by decide)).1 (by decide),
   (receipt_status_determines_ledger cfg0 chainBad db4 "alice" 10 10
      target_address 100 (by decide) (by decide)).2 (by decide)⟩

/-- C6: on the single-wallet path, when the wallet row is found and its
balance is the falsy integer 0 or at most 1, the operation only logs and
returns — no mint attempt and no ledger write; conversely a mint attempt or
a ledger change can occur only when the balance exceeds 1. -/
theorem single_wallet_low_balance_guard (cfg : Config) (chain : Chain)
    (db : DB) (username : String) (pid : Nat) (xp : Int) (addr : String)
    (wid : Nat)
    (h : lookup_wallet db target_address
      = some (username, pid, xp, addr, wid)) :
    (xp ≤ 1 →
      mint_to_specific_wallet cfg chain db
        = { ledger := db.transactions
            nonce := 0
            trace := [Event.log Level.info "❌ No users with XP found."] }) ∧
    ((mint_to_specific_wallet cfg chain db).trace.filterMap attemptOf ≠ []
      → 1 < xp) ∧
    ((mint_to_specific_wallet cfg chain db).ledger ≠ db.transactions
      → 1 < xp) := by
  have hlow : xp ≤ 1 →
      mint_to_specific_wallet cfg chain db
        = { ledger := db.transactions
            nonce := 0
            trace := [Event.log Level.info "❌ No users with XP found."] } := by
    intro hxp
    unfold mint_to_specific_wallet
    rw [h]
    have hc : xp = 0 ∨ xp ≤ 1 := Or.inr hxp
    simp [hc]
  refine ⟨hlow, ?_, ?_⟩
  · intro hne
    by_contra hcon
    push_neg at hcon
    rw [hlow hcon] at hne
    simp [attemptOf] at hne
  · intro hne
    by_contra hcon
    push_neg at hcon
    rw [hlow hcon] at hne
    simp at hne

/-- Witness for C6 at the concrete fixture with balance 1. -/
theorem single_wallet_low_balance_guard_witness :
    mint_to_specific_wallet cfg0 chainOk db5
      = { ledger := db5.transactions
          nonce := 0
          trace := [Event.log Level.info "❌ No users with XP found."] } :=
  (single_wallet_low_balance_guard cfg0 chainOk db5 "bob" 20 1
    target_address 200 (by decide)).1 (by decide)

/-- C7: `get_users` returns exactly the (username, profile id, balance,
wallet address, wallet id) tuples of the wallets joined through a profile
with strictly positive point balance, and every returned tuple carries a
strictly positive balance — profiles with balance ≤ 0 are excluded. -/
theorem get_users_characterization (db : DB) (t : UserTuple) :
    (t ∈ get_users db ↔
      ∃ up, up ∈ db.profiles ∧ ∃ u, u ∈ db.users ∧ ∃ w, w ∈ db.wallets ∧
        up.user_id = u.id ∧ w.user_id = up.id ∧ 0 < up.xp_points ∧
        t = (u.username, up.id, up.xp_points, w.wallet_address, w.id)) ∧
    (∀ s ∈ get_users db, 0 < s.2.2.1) := by
  refine ⟨mem_get_users_iff db t, ?_⟩
  intro s hs
  obtain ⟨up, -, u, -, w, -, -, -, hpos, hts⟩ := (mem_get_users_iff db s).1 hs
  subst hts
  exact hpos

/-- Witness for C7: a concrete tuple is in the query result. -/
theorem get_users_characterization_witness :
    ("alice", 10, (10 : Int), target_address, 100) ∈ get_users db4 :=
  ((get_users_characterization db4
      ("alice", 10, (10 : Int), target_address, 100)).1).mpr
    ⟨{ id := 10, user_id := 1, xp_points := 10 }, by decide,
     { id := 1, username := "alice" }, by decide,
     { id := 100, user_id := 10, wallet_address := target_address },
     by decide, rfl, rfl, by decide, rfl⟩

/-- C8: `mint_xp` returns the transaction hash hex string exactly when the
awaited confirmation receipt has status 1, and `None` exactly when the
status differs from 1. -/
theorem mint_xp_returns_hash_iff_status_one (cfg : Config) (chain : Chain)
    (addr : String) (amount : Int) (nonce : Nat) (ownerKey : String) :
    ((mint_xp cfg chain addr amount nonce ownerKey).1
        = some (submitResult cfg chain addr amount nonce ownerKey).hashHex
      ↔ (submitResult cfg chain addr amount nonce ownerKey).status = 1) ∧
    ((mint_xp cfg chain addr amount nonce ownerKey).1 = none
      ↔ ¬(submitResult cfg chain addr amount nonce ownerKey).status = 1) := by
  by_cases hs :
      (submitResult cfg chain addr amount nonce ownerKey).status = 1 <;>
    simp [mint_xp, hs]

/-- C9: whenever the hardcoded target wallet is found with balance above 1,
the very first log line the single-wallet path emits is the owner private
key, verbatim, at INFO level — and the mint attempt occurs only later in
the trace. -/
theorem private_key_logged_before_mint (cfg : Config) (chain : Chain)
    (db : DB) (username : String) (pid : Nat) (xp : Int) (addr : String)
    (wid : Nat)
    (h : lookup_wallet db target_address = some (username, pid, xp, addr, wid))
    (hxp : 1 < xp) :
    (mint_to_specific_wallet cfg chain db).trace.head?
      = some (Event.log Level.info cfg.xpOwnerPrivateKey) ∧
    (mint_to_specific_wallet cfg chain db).trace.filterMap attemptOf
      = [(addr, xp - 1)] := by
  rw [mint_to_specific_wallet_eq cfg chain db username pid xp addr wid h hxp]
  by_cases hs : (singleRes cfg chain addr xp).status = 1 <;>
    simp [hs, singleTrace0, attemptOf]

/-- Witness for C9 at the concrete fixture. -/
theorem private_key_logged_before_mint_witness :
    (mint_to_specific_wallet cfg0 chainOk db4).trace.head?
      = some (Event.log Level.info cfg0.xpOwnerPrivateKey) ∧
    (mint_to_specific_wallet cfg0 chainOk db4).trace.filterMap attemptOf
      = [(target_address, (10 : Int) - 1)] :=
  private_key_logged_before_mint cfg0 chainOk db4 "alice" 10 10
    target_address 100 (by decide) (by decide)

/-- C10: in batch mode there is no lower-bound guard beyond strict
positivity: a profile with point balance exactly 1 and no prior recorded
mints is selected as eligible, passes the pending-mint check, and the batch
loop attempts a mint of amount 0 for its wallet; the balance ≤ 1 guard
exists only on the single-wallet path. -/
theorem balance_one_batch_attempts_zero (chain : Chain) (db : DB)
    (u : UserRow) (up : ProfileRow) (w : WalletRow)
    (hu : u ∈ db.users) (hup : up ∈ db.profiles) (hw : w ∈ db.wallets)
    (h1 : up.user_id = u.id) (h2 : w.user_id = up.id)
    (hxp : up.xp_points = 1)
    (hnone : db.transactions.filter
      (fun t => t.user_id == up.id && t.token == "XP") = []) :
    (u.username, up.id, up.xp_points, w.wallet_address, w.id)
        ∈ get_users db ∧
    skips db.transactions
      (u.username, up.id, up.xp_points, w.wallet_address, w.id) = false ∧
    (w.wallet_address, (0 : Int))
        ∈ (run chain db).trace.filterMap attemptOf := by
  have hmem : (u.username, up.id, up.xp_points, w.wallet_address, w.id)
      ∈ get_users db :=
    (mem_get_users_iff db _).2
      ⟨up, hup, u, hu, w, hw, h1, h2, by omega, rfl⟩
  have hskip : skips db.transactions
      (u.username, up.id, up.xp_points, w.wallet_address, w.id) = false := by
    simp [skips, has_pending_transaction,
      totalMinted_eq_zero db.transactions up.id hnone, hxp]
  refine ⟨hmem, hskip, ?_⟩
  rw [run_attempts]
  refine List.mem_map.2 ⟨_, List.mem_filter.2 ⟨hmem, by simp [hskip]⟩, ?_⟩
  simp [hxp]

/-- Witness for C10 at the concrete fixture. -/
theorem balance_one_batch_attempts_zero_witness :
    ("carol", 30, (1 : Int), "0xCCC", 300) ∈ get_users db6 ∧
    skips db6.transactions ("carol", 30, (1 : Int), "0xCCC", 300) = false ∧
    ("0xCCC", (0 : Int)) ∈ (run chainOk db6).trace.filterMap attemptOf :=
  balance_one_batch_attempts_zero chainOk db6
    { id := 3, username := "carol" } { id := 30, user_id := 3, xp_points := 1 }
    { id := 300, user_id := 30, wallet_address := "0xCCC" }
    (by decide) (by decide) (by decide) rfl rfl rfl rfl

end Mint
